import Mathlib

/-!
Verification of the opus_trade_bot trading engine core against its
natural-language specification.  The C++ sources are shallowly embedded:
doubles become rationals (with an explicit variant type for the non-finite
values where the code branches on finiteness), machine integers become
integers with explicit range bounds where they matter, the steady clock
becomes an integer-valued time parameter, and the exchange client becomes
an explicit oracle of responses.
-/

namespace Opus

/-! ## Doubles and the fixed-point scalar types (include/opus/core/types.hpp) -/

/-- Model of a C++ double as far as the embedded code inspects it: either a
finite value (modelled exactly as a rational) or one of the non-finite
values that make `std::isfinite` return false. -/
inductive DoubleVal where
  | finite (q : ℚ)
  | nan
  | posInf
  | negInf
deriving DecidableEq, Repr

/-- Fixed-point scale of Price and Quantity: 10^8. -/
def PRECISION : ℤ := 100000000

def INT64_MAX : ℤ := 9223372036854775807

def INT64_MIN : ℤ := -9223372036854775808

/-- Truncation toward zero: the value semantics of static_cast from double
to int64_t when the truncated value is representable. -/
def truncToInt (q : ℚ) : ℤ := if 0 ≤ q then ⌊q⌋ else ⌈q⌉

/-- Semantics of static_cast to int64_t applied to a finite double: defined
(some) exactly when the truncated value is representable in int64; an
out-of-range cast is undefined behaviour, modelled as none. -/
def castInt64 (q : ℚ) : Option ℤ :=
  if INT64_MIN ≤ truncToInt q ∧ truncToInt q ≤ INT64_MAX then some (truncToInt q)
  else none

/-- Price::from_double (types.hpp lines 60-62): the bare cast
static_cast to int64_t of price * PRECISION, with no finiteness or range
guard.  Casting a non-finite double (the product stays non-finite) or an
out-of-range product is undefined behaviour, modelled as none. -/
def Price.from_double (x : DoubleVal) : Option ℤ :=
  match x with
  | .finite q => castInt64 (q * (PRECISION : ℚ))
  | .nan => none
  | .posInf => none
  | .negInf => none

/-- Quantity::from_double (types.hpp lines 97-103): returns 0 on a
non-finite input, clamps inputs above 9.2e10 to int64 max and below
-9.2e10 to int64 min + 1, and otherwise casts qty * PRECISION. -/
def Quantity.from_double (x : DoubleVal) : Option ℤ :=
  match x with
  | .nan => some 0
  | .posInf => some 0
  | .negInf => some 0
  | .finite q =>
    if q > 92000000000 then some INT64_MAX
    else if q < -92000000000 then some (INT64_MIN + 1)
    else castInt64 (q * (PRECISION : ℚ))

/-- Characterisation of the inputs on which Price::from_double performs a
defined cast: finite, with the scaled truncation representable in int64. -/
def priceCastDefined (x : DoubleVal) : Bool :=
  match x with
  | .finite q =>
    decide (INT64_MIN ≤ truncToInt (q * (PRECISION : ℚ)) ∧
            truncToInt (q * (PRECISION : ℚ)) ≤ INT64_MAX)
  | _ => false

/-! ## Risk manager (include/opus/risk/risk_manager.hpp) -/

namespace risk

/-- RiskConfig (risk_manager.hpp lines 21-38).  Double fields become
rationals, int fields integers.  Times are steady-clock milliseconds. -/
structure RiskConfig where
  max_position_usd : ℚ := 100
  max_open_positions : ℤ := 1
  max_orders_per_minute : ℤ := 2
  min_order_interval_ms : ℤ := 30000
  stop_loss_pct : ℚ := 0.25
  take_profit_pct : ℚ := 0.50
  max_daily_loss_usd : ℚ := 50
  maker_fee_pct : ℚ := 0.02
  taker_fee_pct : ℚ := 0.05
deriving DecidableEq, Repr

namespace limits

def MIN_STOP_LOSS_PCT : ℚ := 0.20

def MAX_POSITION_USD : ℚ := 500

/-- Declared as the double 10000.0 and cast to int at its use site. -/
def MIN_ORDER_INTERVAL_MS : ℤ := 10000

def MAX_DAILY_TRADES : ℤ := 20

end limits

inductive TradeDecision where
  | Approved
  | RejectedPositionLimit
  | RejectedRateLimit
  | RejectedDailyLoss
  | RejectedCooldown
  | RejectedMaxTrades
deriving DecidableEq, Repr

/-- TradeResult.  The diagnostic reason string is not modelled. -/
structure TradeResult where
  decision : TradeDecision
  position_size_usd : ℚ := 0
  stop_loss_price : ℚ := 0
  take_profit_price : ℚ := 0
deriving DecidableEq, Repr

/-- Mutable state of a RiskManager (risk_manager.hpp lines 180-183).
last_order_time is a steady-clock timestamp in milliseconds; the
default-constructed time_point is the epoch, i.e. 0. -/
structure RiskState where
  open_positions : ℤ := 0
  daily_trades : ℤ := 0
  daily_pnl : ℚ := 0
  last_order_time : ℤ := 0
deriving DecidableEq, Repr

/-- RiskManager::apply_hardcoded_limits (risk_manager.hpp lines 186-192). -/
def apply_hardcoded_limits (config : RiskConfig) : RiskConfig :=
  { config with
    stop_loss_pct := max config.stop_loss_pct limits.MIN_STOP_LOSS_PCT
    max_position_usd := min config.max_position_usd limits.MAX_POSITION_USD
    min_order_interval_ms := max config.min_order_interval_ms limits.MIN_ORDER_INTERVAL_MS }

/-- A constructed RiskManager: clamped config plus freshly reset state. -/
structure RiskManager where
  config : RiskConfig
  state : RiskState
deriving DecidableEq, Repr

/-- RiskManager constructor (risk_manager.hpp lines 74-77): clamps the
config and resets daily stats. -/
def mkRiskManager (config : RiskConfig) : RiskManager :=
  { config := apply_hardcoded_limits config
    state := { open_positions := 0, daily_trades := 0, daily_pnl := 0, last_order_time := 0 } }

/-- RiskManager::can_trade (risk_manager.hpp lines 83-135), written as a
state transformer to make its (absence of) state mutation explicit: every
return path of the C++ method leaves the fields untouched, so every branch
here returns the state it was given.  now is the steady clock reading in
milliseconds. -/
def can_trade (cfg : RiskConfig) (s : RiskState) (now : ℤ) (entry_price : ℚ)
    (is_long : Bool) : TradeResult × RiskState :=
  if s.daily_pnl ≤ -cfg.max_daily_loss_usd then
    ({ decision := .RejectedDailyLoss }, s)
  else if s.daily_trades ≥ limits.MAX_DAILY_TRADES then
    ({ decision := .RejectedMaxTrades }, s)
  else if s.open_positions ≥ cfg.max_open_positions then
    ({ decision := .RejectedPositionLimit }, s)
  else if now - s.last_order_time < cfg.min_order_interval_ms then
    ({ decision := .RejectedCooldown }, s)
  else
    let sl_offset := entry_price * (cfg.stop_loss_pct / 100)
    let tp_offset := entry_price * (cfg.take_profit_pct / 100)
    ({ decision := .Approved
       position_size_usd := cfg.max_position_usd
       stop_loss_price := if is_long then entry_price - sl_offset else entry_price + sl_offset
       take_profit_price := if is_long then entry_price + tp_offset else entry_price - tp_offset },
     s)

/-- RiskManager::on_order_placed (risk_manager.hpp lines 141-145). -/
def on_order_placed (s : RiskState) (now : ℤ) : RiskState :=
  { s with last_order_time := now
           open_positions := s.open_positions + 1
           daily_trades := s.daily_trades + 1 }

/-- RiskManager::on_position_closed (risk_manager.hpp lines 147-150). -/
def on_position_closed (s : RiskState) (pnl : ℚ) : RiskState :=
  { s with open_positions := max 0 (s.open_positions - 1)
           daily_pnl := s.daily_pnl + pnl }

/-- RiskManager::reset_daily_stats (risk_manager.hpp lines 156-159). -/
def reset_daily_stats (s : RiskState) : RiskState :=
  { s with daily_pnl := 0, daily_trades := 0 }

end risk

/-! ## Signal filter (include/opus/strategy/signal_filter.hpp) -/

namespace strategy

/-- SignalFilterConfig (signal_filter.hpp lines 19-33). -/
structure SignalFilterConfig where
  imbalance_threshold : ℚ := 0.6
  high_conviction_threshold : ℚ := 0.7
  confirmation_ticks : ℤ := 3
  high_conviction_ticks : ℤ := 1
  cooldown_seconds : ℤ := 30
  max_spread_pct : ℚ := 0.05
deriving DecidableEq, Repr

inductive SignalType where
  | None
  | Buy
  | Sell
deriving DecidableEq, Repr

/-- FilteredSignal (signal_filter.hpp lines 47-52). -/
structure FilteredSignal where
  type : SignalType := .None
  imbalance : ℚ := 0
  confidence : ℚ := 0
  is_high_conviction : Bool := false
deriving DecidableEq, Repr

/-- Mutable state of a SignalFilter (signal_filter.hpp lines 151-156).
The steady-clock timers are in nanoseconds; default-constructed
time_points are the epoch, i.e. 0. -/
structure FilterState where
  last_direction : SignalType := .None
  consecutive_ticks : ℤ := 0
  last_buy_time : ℤ := 0
  last_sell_time : ℤ := 0
deriving DecidableEq, Repr

/-- SignalFilter::get_direction (signal_filter.hpp lines 161-165). -/
def get_direction (imbalance : ℚ) : SignalType :=
  if imbalance > 0 then .Buy else if imbalance < 0 then .Sell else .None

/-- SignalFilter::calculate_confidence (signal_filter.hpp lines 171-176). -/
def calculate_confidence (cfg : SignalFilterConfig) (abs_imb : ℚ) : ℚ :=
  let normalized := (abs_imb - cfg.imbalance_threshold) / (1 - cfg.imbalance_threshold)
  min 1 (max 0.5 (0.5 + normalized * 0.5))

/-- std::chrono::seconds compared against a steady-clock (nanosecond)
duration: the configured cooldown in nanoseconds. -/
def cooldown_ns (cfg : SignalFilterConfig) : ℤ := cfg.cooldown_seconds * 1000000000

/-- SignalFilter::filter (signal_filter.hpp lines 61-129) as a state
transformer; now is the steady-clock reading in nanoseconds.  Branches
follow the C++ line by line: direction change resets the streak, the
spread and threshold gates reset the streak and return no signal, the
confirmation gate returns no signal, the directional cooldown gate returns
no signal, and an emitted signal stamps the matching cooldown timer (the
else branch of that stamp catches the None direction) and resets the
streak. -/
def filter (cfg : SignalFilterConfig) (s0 : FilterState) (imbalance spread_pct : ℚ)
    (now : ℤ) : FilteredSignal × FilterState :=
  let dir := get_direction imbalance
  let s1 := if dir ≠ s0.last_direction
            then { s0 with consecutive_ticks := 0, last_direction := dir }
            else s0
  if spread_pct > cfg.max_spread_pct then
    ({}, { s1 with consecutive_ticks := 0 })
  else
    let abs_imb := |imbalance|
    if abs_imb < cfg.imbalance_threshold then
      ({}, { s1 with consecutive_ticks := 0 })
    else
      let s2 := { s1 with consecutive_ticks := s1.consecutive_ticks + 1 }
      let is_hc : Bool := decide (abs_imb ≥ cfg.high_conviction_threshold)
      let required := if is_hc then cfg.high_conviction_ticks else cfg.confirmation_ticks
      if s2.consecutive_ticks < required then
        ({}, s2)
      else if dir = .Buy ∧ now - s2.last_buy_time < cooldown_ns cfg then
        ({}, s2)
      else if dir = .Sell ∧ now - s2.last_sell_time < cooldown_ns cfg then
        ({}, s2)
      else
        let out : FilteredSignal :=
          { type := dir
            imbalance := imbalance
            is_high_conviction := is_hc
            confidence := calculate_confidence cfg abs_imb }
        let s3 := if dir = .Buy then { s2 with last_buy_time := now }
                  else { s2 with last_sell_time := now }
        (out, { s3 with consecutive_ticks := 0 })

/-- One call to SignalFilter::filter: the imbalance and spread arguments
together with the steady-clock time at which the call happens. -/
structure FilterInput where
  imbalance : ℚ
  spread_pct : ℚ
  now : ℤ
deriving DecidableEq, Repr

/-- Run a sequence of filter calls, recording for each call its clock time
and the type of the returned signal. -/
def runFilter (cfg : SignalFilterConfig) (s : FilterState) :
    List FilterInput → List (ℤ × SignalType)
  | [] => []
  | x :: xs =>
    let r := filter cfg s x.imbalance x.spread_pct x.now
    (x.now, r.1.type) :: runFilter cfg r.2 xs

/-! ## Order book imbalance (include/opus/strategy/order_book_imbalance.hpp) -/

/-- A price level as the imbalance code reads it: price and quantity via
to_double, i.e. as rationals. -/
structure QLevel where
  price : ℚ
  quantity : ℚ
deriving DecidableEq, Repr

/-- The accumulation loop of OrderBookImbalance::calculate: sum of the
quantities of the first n levels. -/
def sumTopQty : List QLevel → ℕ → ℚ
  | _, 0 => 0
  | [], _ + 1 => 0
  | x :: xs, n + 1 => x.quantity + sumTopQty xs n

/-- The accumulation loop of OrderBookImbalance::calculate_weighted at
depth L, starting from level index i: weight 1 - i/L decays linearly. -/
def sumTopQtyWeighted (L : ℕ) : List QLevel → ℕ → ℕ → ℚ
  | _, _, 0 => 0
  | [], _, _ + 1 => 0
  | x :: xs, i, n + 1 =>
    x.quantity * (1 - (i : ℚ) / (L : ℚ)) + sumTopQtyWeighted L xs (i + 1) n

/-- OrderBookImbalance::calculate (order_book_imbalance.hpp lines 27-47). -/
def calculate (bids asks : List QLevel) (levels : ℕ) : ℚ :=
  if bids = [] ∨ asks = [] then 0
  else
    let n := min levels (min bids.length asks.length)
    let bid_volume := sumTopQty bids n
    let ask_volume := sumTopQty asks n
    let total := bid_volume + ask_volume
    if total = 0 then 0 else (bid_volume - ask_volume) / total

/-- OrderBookImbalance::calculate_weighted (order_book_imbalance.hpp lines
50-71); this is also, word for word, the depth-weighted imbalance formula
of the specification. -/
def calculate_weighted (bids asks : List QLevel) (levels : ℕ) : ℚ :=
  if bids = [] ∨ asks = [] then 0
  else
    let n := min levels (min bids.length asks.length)
    let bid_volume := sumTopQtyWeighted levels bids 0 n
    let ask_volume := sumTopQtyWeighted levels asks 0 n
    let total := bid_volume + ask_volume
    if total = 0 then 0 else (bid_volume - ask_volume) / total

/-- ImbalanceSignalGenerator::Config (order_book_imbalance.hpp lines
99-104). -/
structure ObiConfig where
  threshold : ℚ := 0.3
  strong_threshold : ℚ := 0.5
  depth_levels : ℕ := 5
  smoothing_period : ℕ := 10
deriving DecidableEq, Repr

/-- Mutable state of an ImbalanceSignalGenerator (order_book_imbalance.hpp
lines 161-166), as initialised by the constructor. -/
structure ObiState where
  smoothed_imbalance : ℚ := 0
  raw_imbalance : ℚ := 0
  sample_count : ℕ := 0
deriving DecidableEq, Repr

/-- ImbalanceSignalGenerator::update (order_book_imbalance.hpp lines
110-124): computes the raw imbalance with OrderBookImbalance::calculate,
EMA-smooths it, bumps the sample count and stores the raw value. -/
def obi_update (cfg : ObiConfig) (s : ObiState) (bids asks : List QLevel) : ObiState :=
  let raw := calculate bids asks cfg.depth_levels
  let smoothed :=
    if s.sample_count = 0 then raw
    else
      let alpha : ℚ := 2 / ((cfg.smoothing_period : ℚ) + 1)
      alpha * raw + (1 - alpha) * s.smoothed_imbalance
  { smoothed_imbalance := smoothed, raw_imbalance := raw, sample_count := s.sample_count + 1 }

end strategy

/-! ## Order book (src/market/order_book.cpp) -/

namespace market

/-- OrderBook::MAX_LEVELS (order_book.hpp line 33). -/
def MAX_LEVELS : ℕ := 1000

/-- A book level as (raw price, raw quantity); order_count is never read
by the update path. -/
abbrev Level := ℤ × ℤ

/-- Sorted insertion shared by OrderBook::insert_bid and
OrderBook::insert_ask (order_book.cpp lines 131-183).  prec p' p is the
comparator of the std::lower_bound call: while the head level's price
precedes the new price, descend; at the first level that does not precede,
overwrite the quantity if the price is equal, else splice the new level in
front.  The source computes the same position by binary search and shifts
with move_backward; the result is the same list. -/
def insert_sorted (prec : ℤ → ℤ → Prop) [DecidableRel prec] (p q : ℤ) :
    List Level → List Level
  | [] => [(p, q)]
  | (p', q') :: rest =>
    if prec p' p then (p', q') :: insert_sorted prec p q rest
    else if p' = p then (p, q) :: rest
    else (p, q) :: (p', q') :: rest

/-- Removal shared by OrderBook::remove_bid and OrderBook::remove_ask
(order_book.cpp lines 185-207): find the first level with equal price and
shift the suffix left over it; absent price leaves the side unchanged. -/
def remove_level (p : ℤ) (l : List Level) : List Level :=
  List.eraseP (fun e => e.1 == p) l

/-- OrderBook::insert_bid: descending insert, and the capacity branch
(count = MAX_LEVELS) that drops the worst level, which equals truncating
the spliced list to MAX_LEVELS (inserting past the end inserts nothing). -/
def insert_bid (p q : ℤ) (bids : List Level) : List Level :=
  List.take MAX_LEVELS (insert_sorted (fun a b => a > b) p q bids)

/-- OrderBook::insert_ask: ascending insert with the same capacity rule. -/
def insert_ask (p q : ℤ) (asks : List Level) : List Level :=
  List.take MAX_LEVELS (insert_sorted (fun a b => a < b) p q asks)

/-- The two sides of an OrderBook relevant to the update path. -/
structure Book where
  bids : List Level := []
  asks : List Level := []
deriving DecidableEq, Repr

/-- OrderBook::update_bid (order_book.cpp lines 40-48): zero quantity
removes the level, otherwise insert-or-update. -/
def update_bid (b : Book) (p q : ℤ) : Book :=
  if q = 0 then { b with bids := remove_level p b.bids }
  else { b with bids := insert_bid p q b.bids }

/-- OrderBook::update_ask (order_book.cpp lines 50-58). -/
def update_ask (b : Book) (p q : ℤ) : Book :=
  if q = 0 then { b with asks := remove_level p b.asks }
  else { b with asks := insert_ask p q b.asks }

/-- One update_bid or update_ask call. -/
inductive BookUpdate where
  | bid (p q : ℤ)
  | ask (p q : ℤ)
deriving DecidableEq, Repr

def applyUpdate (b : Book) : BookUpdate → Book
  | .bid p q => update_bid b p q
  | .ask p q => update_ask b p q

def applyUpdates (us : List BookUpdate) (b : Book) : Book :=
  us.foldl applyUpdate b

end market

/-! ## SPSC ring buffer (include/opus/core/ring_buffer.hpp) -/

namespace ring

/-- State of an SPSCRingBuffer with capacity C: the two cursors (always
kept below C by the masking) and the storage array, modelled as a total
function read at already-masked indices. -/
structure RingState (T : Type) where
  head : ℕ
  tail : ℕ
  buffer : ℕ → T

/-- SPSCRingBuffer::SPSCRingBuffer (ring_buffer.hpp lines 69-74):
cursors at 0, storage zero-initialised. -/
def mkRing {T : Type} (z : T) : RingState T :=
  { head := 0, tail := 0, buffer := fun _ => z }

/-- SPSCRingBuffer::try_push (ring_buffer.hpp lines 82-96), with
MASK = C - 1. -/
def try_push {T : Type} (C : ℕ) (s : RingState T) (item : T) : Bool × RingState T :=
  let next_head := (s.head + 1) &&& (C - 1)
  if next_head = s.tail then (false, s)
  else
    (true,
     { s with buffer := fun i => if i = s.head then item else s.buffer i
              head := next_head })

/-- SPSCRingBuffer::try_pop (ring_buffer.hpp lines 108-121). -/
def try_pop {T : Type} (C : ℕ) (s : RingState T) : Option T × RingState T :=
  if s.tail = s.head then (none, s)
  else (some (s.buffer s.tail), { s with tail := (s.tail + 1) &&& (C - 1) })

/-- SPSCRingBuffer::size (ring_buffer.hpp lines 155-159): the source
computes (head - tail) & MASK on size_t; for a power-of-two C dividing
2^64 the wrapping subtraction followed by the mask equals
(head + C - tail) mod C when both cursors are below C. -/
def ringSize (C : ℕ) {T : Type} (s : RingState T) : ℕ :=
  (s.head + C - s.tail) % C

/-- Abstraction to the FIFO queue the ring represents: the items from the
consumer cursor up to the producer cursor, oldest first. -/
def absQueue (C : ℕ) {T : Type} (s : RingState T) : List T :=
  (List.range (ringSize C s)).map fun i => s.buffer ((s.tail + i) % C)

/-- Driver for the concrete wrap-around scenario: push each value in turn,
keeping the success flags. -/
def pushAll {T : Type} (C : ℕ) (s : RingState T) :
    List T → List Bool × RingState T
  | [] => ([], s)
  | x :: xs =>
    let r := try_push C s x
    let rest := pushAll C r.2 xs
    (r.1 :: rest.1, rest.2)

/-- Driver for the concrete wrap-around scenario: pop n times, keeping the
results. -/
def popN {T : Type} (C : ℕ) (s : RingState T) : ℕ → List (Option T) × RingState T
  | 0 => ([], s)
  | n + 1 =>
    let r := try_pop C s
    let rest := popN C r.2 n
    (r.1 :: rest.1, rest.2)

end ring

/-! ## Order manager and the engine's bracket path
(src/order/order_manager.cpp, src/main.cpp lines 874-960) -/

namespace order

inductive Side where
  | Buy
  | Sell
deriving DecidableEq, Repr

def opposite : Side → Side
  | .Buy => .Sell
  | .Sell => .Buy

inductive OrderType where
  | Market
  | Limit
  | StopMarket
  | StopLimit
  | TakeProfit
  | TakeProfitMarket
deriving DecidableEq, Repr

/-- OrderRequest (client.hpp lines 69-81) restricted to the fields the
bracket path writes or the claims read; quantities and prices are raw
fixed-point integers. -/
structure OrderRequest where
  symbol : String
  side : Side
  type : OrderType := .Market
  quantity : ℤ := 0
  price : ℤ := 0
  stop_price : ℤ := 0
  client_order_id : String := ""
  reduce_only : Bool := false
deriving DecidableEq, Repr

/-- OrderInfo (client.hpp lines 43-56) restricted to the fields the
bracket path reads. -/
structure OrderInfo where
  order_id : ℤ
  client_order_id : String := ""
  price : ℤ := 0
  executed_qty : ℤ := 0
deriving DecidableEq, Repr

/-- BracketOrderResult (order_manager.hpp lines 22-26). -/
structure BracketOrderResult where
  entry_order : Option OrderInfo := none
  stop_loss_order : Option OrderInfo := none
  take_profit_order : Option OrderInfo := none
deriving DecidableEq, Repr

/-- OrderManager::generate_client_order_id (order_manager.cpp lines
161-163): pre-increment the atomic counter and prefix with opus_. -/
def generate_client_order_id (counter : ℕ) : String × ℕ :=
  ("opus_" ++ toString (counter + 1), counter + 1)

/-- The outcome of a run of the order-placement code: what it returned,
the requests it sent to IBinanceClient::place_order in order, and the
updated counter. -/
structure PlacementTrace (R : Type) where
  ret : R
  placed : List OrderRequest
  counter : ℕ
deriving Repr

/-- OrderManager::place_market_order (order_manager.cpp lines 13-31); the
client's reply is supplied by the oracle argument resp. -/
def place_market_order (counter : ℕ) (symbol : String) (side : Side) (quantity : ℤ)
    (resp : Option OrderInfo) : PlacementTrace (Option OrderInfo) :=
  let g := generate_client_order_id counter
  let request : OrderRequest :=
    { symbol := symbol, side := side, type := .Market, quantity := quantity
      client_order_id := g.1 }
  { ret := resp, placed := [request], counter := g.2 }

/-- OrderManager::place_bracket_order (order_manager.cpp lines 57-121).
The three oracle arguments are the client's replies to the entry, stop
loss and take profit submissions; the last two are consumed only when the
entry succeeds. -/
def place_bracket_order (counter : ℕ) (symbol : String) (side : Side)
    (quantity stop_loss_price take_profit_price : ℤ)
    (entry_resp sl_resp tp_resp : Option OrderInfo) :
    PlacementTrace BracketOrderResult :=
  let entry := place_market_order counter symbol side quantity entry_resp
  match entry.ret with
  | none =>
    { ret := {}, placed := entry.placed, counter := entry.counter }
  | some e =>
    let close_side := opposite side
    let gsl := generate_client_order_id entry.counter
    let sl_req : OrderRequest :=
      { symbol := symbol, side := close_side, type := .StopMarket
        quantity := quantity, stop_price := stop_loss_price
        reduce_only := true, client_order_id := gsl.1 ++ "_SL" }
    let gtp := generate_client_order_id gsl.2
    let tp_req : OrderRequest :=
      { symbol := symbol, side := close_side, type := .TakeProfitMarket
        quantity := quantity, stop_price := take_profit_price
        reduce_only := true, client_order_id := gtp.1 ++ "_TP" }
    { ret := { entry_order := some e, stop_loss_order := sl_resp
               take_profit_order := tp_resp }
      placed := entry.placed ++ [sl_req, tp_req]
      counter := gtp.2 }

/-- Modelled from the spec: OrderManager::place_reduce_only_market_order
is called from main.cpp line 948 but its definition is not in the source
tree (order_manager.hpp and order_manager.cpp do not contain it).  Per the
spec's emergency close policy, it issues a reduce-only Market order on the
given side for the given quantity; like the other placement methods it
draws a fresh client order id. -/
def place_reduce_only_market_order (counter : ℕ) (symbol : String) (side : Side)
    (quantity : ℤ) : PlacementTrace Unit :=
  let g := generate_client_order_id counter
  let request : OrderRequest :=
    { symbol := symbol, side := side, type := .Market, quantity := quantity
      reduce_only := true, client_order_id := g.1 }
  { ret := (), placed := [request], counter := g.2 }

/-- The engine's execution path after a risk-approved signal
(main.cpp lines 925-954): place the bracket, and when the entry is present
but a bracket leg is missing, immediately send the emergency reduce-only
Market close on the opposite side, for the entry's executed quantity when
that is valid (raw value > 0) and otherwise for the locally computed
rounded quantity.  The returned trace lists every order request the engine
hands to the client, in order; the code places no other order between the
bracket and the emergency close. -/
def engine_bracket_step (counter : ℕ) (symbol : String) (is_long : Bool)
    (rounded_qty stop_loss_price take_profit_price : ℤ)
    (entry_resp sl_resp tp_resp : Option OrderInfo) :
    PlacementTrace BracketOrderResult :=
  let side : Side := if is_long then .Buy else .Sell
  let result := place_bracket_order counter symbol side rounded_qty
    stop_loss_price take_profit_price entry_resp sl_resp tp_resp
  match result.ret.entry_order with
  | none => result
  | some e =>
    if result.ret.stop_loss_order = none ∨ result.ret.take_profit_order = none then
      let close_side := if is_long then Side.Sell else Side.Buy
      let close_qty := if e.executed_qty > 0 then e.executed_qty else rounded_qty
      let close := place_reduce_only_market_order result.counter symbol close_side close_qty
      { ret := result.ret, placed := result.placed ++ close.placed
        counter := close.counter }
    else result

end order

/-! ## Theorems -/

/-! ### C9: clamping in Price::from_double and Quantity::from_double -/

theorem castInt64_of_bounds {q : ℚ} (h1 : q ≤ 9200000000000000000)
    (h2 : -9200000000000000000 ≤ q) : (castInt64 q).isSome = true := by
  unfold castInt64 truncToInt
  rcases le_or_lt 0 q with hq | hq
  · have hfl : ⌊q⌋ ≤ INT64_MAX := by
      have h3 : (⌊q⌋ : ℚ) ≤ 9200000000000000000 := (Int.floor_le q).trans h1
      have h4 : ⌊q⌋ ≤ (9200000000000000000 : ℤ) := by exact_mod_cast h3
      unfold INT64_MAX
      omega
    have hge : INT64_MIN ≤ ⌊q⌋ := by
      have h5 : (0 : ℤ) ≤ ⌊q⌋ := Int.floor_nonneg.mpr hq
      unfold INT64_MIN
      omega
    simp [hq, hfl, hge]
  · have hcl : ⌈q⌉ ≤ INT64_MAX := by
      have h5 : ⌈q⌉ ≤ (0 : ℤ) := Int.ceil_le.mpr (by exact_mod_cast hq.le)
      unfold INT64_MAX
      omega
    have hge : INT64_MIN ≤ ⌈q⌉ := by
      have h3 : (-9200000000000000000 : ℚ) ≤ (⌈q⌉ : ℚ) := h2.trans (Int.le_ceil q)
      have h4 : (-9200000000000000000 : ℤ) ≤ ⌈q⌉ := by exact_mod_cast h3
      unfold INT64_MIN
      omega
    simp [not_le.mpr hq, hcl, hge]

/-- C9 counterexample: on the non-finite input NaN, Price::from_double
does not clamp; it reaches the unguarded static_cast (undefined
behaviour), so the claim that both conversions clamp every double fails. -/
theorem price_from_double_nan_unguarded :
    (Price.from_double DoubleVal.nan).isSome = false := by
  rfl

/-- C9 (amended): Quantity::from_double clamps every double - non-finite
inputs to zero and out-of-range inputs to the int64 extrema - and never
reaches an unguarded cast, while Price::from_double performs the cast
unguarded, being defined exactly on finite inputs whose truncated scaled
value is representable in int64. -/
theorem from_double_clamp_amended (x : DoubleVal) :
    (Quantity.from_double x).isSome = true ∧
    (Price.from_double x).isSome = priceCastDefined x ∧
    Quantity.from_double DoubleVal.nan = some 0 ∧
    Quantity.from_double DoubleVal.posInf = some 0 ∧
    Quantity.from_double DoubleVal.negInf = some 0 := by
  refine ⟨?_, ?_, rfl, rfl, rfl⟩
  · cases x with
    | nan => rfl
    | posInf => rfl
    | negInf => rfl
    | finite q =>
      simp only [Quantity.from_double]
      split
      · rfl
      · split
        · rfl
        · rename_i h1 h2
          apply castInt64_of_bounds
          · have hq : q ≤ 92000000000 := not_lt.mp h1
            have : q * (PRECISION : ℚ) ≤ 92000000000 * (PRECISION : ℚ) := by
              apply mul_le_mul_of_nonneg_right hq
              unfold PRECISION
              norm_num
            calc q * (PRECISION : ℚ) ≤ 92000000000 * (PRECISION : ℚ) := this
              _ = 9200000000000000000 := by unfold PRECISION; norm_num
          · have hq : -92000000000 ≤ q := not_lt.mp h2
            have : -92000000000 * (PRECISION : ℚ) ≤ q * (PRECISION : ℚ) := by
              apply mul_le_mul_of_nonneg_right hq
              unfold PRECISION
              norm_num
            calc (-9200000000000000000 : ℚ)
                = -92000000000 * (PRECISION : ℚ) := by unfold PRECISION; norm_num
              _ ≤ q * (PRECISION : ℚ) := this
  · cases x with
    | nan => rfl
    | posInf => rfl
    | negInf => rfl
    | finite q =>
      simp only [Price.from_double, priceCastDefined, castInt64]
      split <;> simp_all

namespace risk

/-! ### C2: hardcoded risk caps -/

/-- C2: for every input RiskConfig, the constructed RiskManager's
effective configuration satisfies stop_loss_pct at least 0.20,
max_position_usd at most 500 and min_order_interval_ms at least 10000,
and once daily_trades has reached 20 can_trade never approves, whatever
the config supplied. -/
theorem risk_hardcaps (c : RiskConfig) :
    ((0.20 : ℚ) ≤ (mkRiskManager c).config.stop_loss_pct ∧
     (mkRiskManager c).config.max_position_usd ≤ (500 : ℚ) ∧
     (10000 : ℤ) ≤ (mkRiskManager c).config.min_order_interval_ms) ∧
    ∀ (s : RiskState) (now : ℤ) (entry_price : ℚ) (is_long : Bool),
      (20 : ℤ) ≤ s.daily_trades →
      (can_trade (mkRiskManager c).config s now entry_price is_long).1.decision ≠
        TradeDecision.Approved := by
  constructor
  · refine ⟨le_max_right _ _, min_le_right _ _, le_max_right _ _⟩
  · intro s now entry_price is_long htrades
    unfold can_trade
    split
    · simp
    · rw [if_pos]
      · simp
      · exact htrades

/-- C2 witness: the caps and the trade-count lockout at a concrete config
and state. -/
theorem risk_hardcaps_witness :
    ((0.20 : ℚ) ≤ (mkRiskManager {}).config.stop_loss_pct ∧
     (mkRiskManager {}).config.max_position_usd ≤ (500 : ℚ) ∧
     (10000 : ℤ) ≤ (mkRiskManager {}).config.min_order_interval_ms) ∧
    (can_trade (mkRiskManager {}).config { daily_trades := 20 } 0 50000 true).1.decision ≠
      TradeDecision.Approved :=
  ⟨(risk_hardcaps {}).1,
   (risk_hardcaps {}).2 { daily_trades := 20 } 0 50000 true (by norm_num)⟩

/-! ### C3: can_trade gate order and approved trade parameters -/

/-- C3: can_trade checks its gates in the order daily loss, max daily
trades, open positions, cooldown, returning the corresponding rejection
exactly when its gate is the first to fire, and otherwise approves with
position size equal to the configured max_position_usd and stop
loss / take profit at entry times (1 -+ pct/100), signs flipped for
shorts. -/
theorem can_trade_gate_order (cfg : RiskConfig) (s : RiskState) (now : ℤ)
    (entry_price : ℚ) (is_long : Bool) :
    ((can_trade cfg s now entry_price is_long).1.decision = TradeDecision.RejectedDailyLoss ↔
      s.daily_pnl ≤ -cfg.max_daily_loss_usd) ∧
    ((can_trade cfg s now entry_price is_long).1.decision = TradeDecision.RejectedMaxTrades ↔
      ¬s.daily_pnl ≤ -cfg.max_daily_loss_usd ∧ (20 : ℤ) ≤ s.daily_trades) ∧
    ((can_trade cfg s now entry_price is_long).1.decision = TradeDecision.RejectedPositionLimit ↔
      ¬s.daily_pnl ≤ -cfg.max_daily_loss_usd ∧ ¬(20 : ℤ) ≤ s.daily_trades ∧
      cfg.max_open_positions ≤ s.open_positions) ∧
    ((can_trade cfg s now entry_price is_long).1.decision = TradeDecision.RejectedCooldown ↔
      ¬s.daily_pnl ≤ -cfg.max_daily_loss_usd ∧ ¬(20 : ℤ) ≤ s.daily_trades ∧
      ¬cfg.max_open_positions ≤ s.open_positions ∧
      now - s.last_order_time < cfg.min_order_interval_ms) ∧
    ((can_trade cfg s now entry_price is_long).1.decision = TradeDecision.Approved ↔
      ¬s.daily_pnl ≤ -cfg.max_daily_loss_usd ∧ ¬(20 : ℤ) ≤ s.daily_trades ∧
      ¬cfg.max_open_positions ≤ s.open_positions ∧
      ¬now - s.last_order_time < cfg.min_order_interval_ms) ∧
    ((can_trade cfg s now entry_price is_long).1.decision = TradeDecision.Approved →
      (can_trade cfg s now entry_price is_long).1.position_size_usd = cfg.max_position_usd ∧
      (can_trade cfg s now entry_price is_long).1.stop_loss_price =
        (if is_long then entry_price * (1 - cfg.stop_loss_pct / 100)
         else entry_price * (1 + cfg.stop_loss_pct / 100)) ∧
      (can_trade cfg s now entry_price is_long).1.take_profit_price =
        (if is_long then entry_price * (1 + cfg.take_profit_pct / 100)
         else entry_price * (1 - cfg.take_profit_pct / 100))) := by
  by_cases h1 : s.daily_pnl ≤ -cfg.max_daily_loss_usd
  · simp [can_trade, h1]
  · by_cases h2 : (20 : ℤ) ≤ s.daily_trades
    · simp [can_trade, limits.MAX_DAILY_TRADES, h1, h2, ge_iff_le]
    · by_cases h3 : cfg.max_open_positions ≤ s.open_positions
      · simp [can_trade, limits.MAX_DAILY_TRADES, h1, h2, h3, ge_iff_le]
      · by_cases h4 : now - s.last_order_time < cfg.min_order_interval_ms
        · simp [can_trade, limits.MAX_DAILY_TRADES, h1, h2, h3, h4, ge_iff_le]
        · simp [can_trade, limits.MAX_DAILY_TRADES, h1, h2, h3, h4, ge_iff_le]
          cases is_long <;> simp <;> constructor <;> ring

/-- C3 witness: at a concrete approving state the decision is Approved
with the stated prices. -/
theorem can_trade_gate_order_witness :
    ((can_trade {} { last_order_time := 0 } 50000 100 true).1.decision =
        TradeDecision.RejectedDailyLoss ↔
      ({ last_order_time := 0 } : RiskState).daily_pnl ≤
        -({} : RiskConfig).max_daily_loss_usd) ∧
    ((can_trade {} { last_order_time := 0 } 50000 100 true).1.decision =
        TradeDecision.RejectedMaxTrades ↔
      ¬({ last_order_time := 0 } : RiskState).daily_pnl ≤
          -({} : RiskConfig).max_daily_loss_usd ∧
      (20 : ℤ) ≤ ({ last_order_time := 0 } : RiskState).daily_trades) ∧
    ((can_trade {} { last_order_time := 0 } 50000 100 true).1.decision =
        TradeDecision.RejectedPositionLimit ↔
      ¬({ last_order_time := 0 } : RiskState).daily_pnl ≤
          -({} : RiskConfig).max_daily_loss_usd ∧
      ¬(20 : ℤ) ≤ ({ last_order_time := 0 } : RiskState).daily_trades ∧
      ({} : RiskConfig).max_open_positions ≤
        ({ last_order_time := 0 } : RiskState).open_positions) ∧
    ((can_trade {} { last_order_time := 0 } 50000 100 true).1.decision =
        TradeDecision.RejectedCooldown ↔
      ¬({ last_order_time := 0 } : RiskState).daily_pnl ≤
          -({} : RiskConfig).max_daily_loss_usd ∧
      ¬(20 : ℤ) ≤ ({ last_order_time := 0 } : RiskState).daily_trades ∧
      ¬({} : RiskConfig).max_open_positions ≤
          ({ last_order_time := 0 } : RiskState).open_positions ∧
      50000 - ({ last_order_time := 0 } : RiskState).last_order_time <
        ({} : RiskConfig).min_order_interval_ms) ∧
    ((can_trade {} { last_order_time := 0 } 50000 100 true).1.decision =
        TradeDecision.Approved ↔
      ¬({ last_order_time := 0 } : RiskState).daily_pnl ≤
          -({} : RiskConfig).max_daily_loss_usd ∧
      ¬(20 : ℤ) ≤ ({ last_order_time := 0 } : RiskState).daily_trades ∧
      ¬({} : RiskConfig).max_open_positions ≤
          ({ last_order_time := 0 } : RiskState).open_positions ∧
      ¬50000 - ({ last_order_time := 0 } : RiskState).last_order_time <
          ({} : RiskConfig).min_order_interval_ms) ∧
    ((can_trade {} { last_order_time := 0 } 50000 100 true).1.decision =
        TradeDecision.Approved →
      (can_trade {} { last_order_time := 0 } 50000 100 true).1.position_size_usd =
        ({} : RiskConfig).max_position_usd ∧
      (can_trade {} { last_order_time := 0 } 50000 100 true).1.stop_loss_price =
        (if true then (100 : ℚ) * (1 - ({} : RiskConfig).stop_loss_pct / 100)
         else (100 : ℚ) * (1 + ({} : RiskConfig).stop_loss_pct / 100)) ∧
      (can_trade {} { last_order_time := 0 } 50000 100 true).1.take_profit_price =
        (if true then (100 : ℚ) * (1 + ({} : RiskConfig).take_profit_pct / 100)
         else (100 : ℚ) * (1 - ({} : RiskConfig).take_profit_pct / 100))) :=
  can_trade_gate_order {} { last_order_time := 0 } 50000 100 true

/-! ### C10: can_trade mutates no risk state -/

/-- C10: whatever decision it returns, can_trade leaves the risk state
(open_positions, daily_trades, daily_pnl, last_order_time) unchanged;
only on_order_placed, on_position_closed and reset_daily_stats advance
it. -/
theorem can_trade_frame (cfg : RiskConfig) (s : RiskState) (now : ℤ)
    (entry_price : ℚ) (is_long : Bool) :
    (can_trade cfg s now entry_price is_long).2 = s := by
  unfold can_trade
  split_ifs <;> rfl

end risk

namespace strategy

/-! ### C5: the signal generator's raw imbalance -/

theorem sumTopQty_eq_take_sum (l : List QLevel) :
    ∀ n : ℕ, sumTopQty l n = ((l.take n).map QLevel.quantity).sum := by
  induction l with
  | nil => intro n; cases n <;> simp [sumTopQty]
  | cons x xs ih =>
    intro n
    cases n with
    | zero => simp [sumTopQty]
    | succ m => simp [sumTopQty, ih m]

/-- C5 counterexample: with the default generator config (depth 5), on the
book bids (100, qty 10), (99, qty 2) and asks (101, qty 2), (102, qty 10),
one update stores raw imbalance 0 (the unweighted sums are 12 on each
side), while the spec's depth-weighted ratio with weights 1 - i/5 equals
2/27; the generator's raw imbalance is not the depth-weighted ratio. -/
theorem obi_raw_not_depth_weighted :
    (obi_update {} {} [⟨100, 10⟩, ⟨99, 2⟩] [⟨101, 2⟩, ⟨102, 10⟩]).raw_imbalance = 0 ∧
    calculate_weighted [⟨100, 10⟩, ⟨99, 2⟩] [⟨101, 2⟩, ⟨102, 10⟩]
      ({} : ObiConfig).depth_levels = 2 / 27 ∧
    (0 : ℚ) ≠ 2 / 27 := by
  refine ⟨?_, ?_, by norm_num⟩
  · simp only [obi_update]
    norm_num [calculate, sumTopQty]
  · norm_num [calculate_weighted, sumTopQtyWeighted]
    all_goals exact ⟨by simp, by simp⟩

/-- C5 (amended): the raw imbalance stored by one
ImbalanceSignalGenerator::update equals the UNWEIGHTED imbalance ratio of
OrderBookImbalance::calculate - quantities of the top
min(L, levels available) levels summed with equal weight - not the
depth-weighted ratio: zero when either side is empty or the two sums
cancel to zero, else (bid_sum - ask_sum) / (bid_sum + ask_sum). -/
theorem obi_raw_unweighted (cfg : ObiConfig) (s : ObiState) (bids asks : List QLevel) :
    (obi_update cfg s bids asks).raw_imbalance =
      if bids = [] ∨ asks = [] then 0
      else
        if ((bids.take (min cfg.depth_levels (min bids.length asks.length))).map
              QLevel.quantity).sum +
           ((asks.take (min cfg.depth_levels (min bids.length asks.length))).map
              QLevel.quantity).sum = 0 then 0
        else
          (((bids.take (min cfg.depth_levels (min bids.length asks.length))).map
              QLevel.quantity).sum -
           ((asks.take (min cfg.depth_levels (min bids.length asks.length))).map
              QLevel.quantity).sum) /
          (((bids.take (min cfg.depth_levels (min bids.length asks.length))).map
              QLevel.quantity).sum +
           ((asks.take (min cfg.depth_levels (min bids.length asks.length))).map
              QLevel.quantity).sum) := by
  simp only [obi_update, calculate, sumTopQty_eq_take_sum]

end strategy

namespace order

/-! ### C4: place_bracket_order choreography -/

/-- C4 counterexample: starting from counter 0, the entry order's client
id is opus_1, but the stop-loss and take-profit requests carry client ids
opus_2_SL and opus_3_TP - each leg calls generate_client_order_id afresh -
so the leg ids are not the entry order's id base suffixed with _SL and
_TP. -/
theorem bracket_leg_ids_not_entry_base :
    ((place_bracket_order 0 "BTCUSDT" Side.Buy 200000 9900 10100
        (some { order_id := 7 }) (some { order_id := 8 }) (some { order_id := 9 })).placed.map
      (fun r => r.client_order_id)) = ["opus_1", "opus_2_SL", "opus_3_TP"] ∧
    ("opus_2_SL" : String) ≠ "opus_1" ++ "_SL" ∧
    ("opus_3_TP" : String) ≠ "opus_1" ++ "_TP" := by
  refine ⟨by decide, by decide, by decide⟩

/-- C4 (amended): place_bracket_order first submits the Market entry; if
the entry fails it returns immediately with entry_order absent and no
stop-loss or take-profit order is attempted; on entry success it submits a
reduce-only StopMarket at sl_price for qty and a reduce-only
TakeProfitMarket at tp_price for qty, both on the side opposite the entry,
whose client ids are freshly generated bases (the next two counter values,
not the entry's base) suffixed _SL and _TP. -/
theorem place_bracket_order_spec (c : ℕ) (symbol : String) (side : Side)
    (qty sl tp : ℤ) (r1 r2 r3 : Option OrderInfo) :
    (r1 = none →
      (place_bracket_order c symbol side qty sl tp r1 r2 r3).ret =
        ({} : BracketOrderResult) ∧
      (place_bracket_order c symbol side qty sl tp r1 r2 r3).placed =
        [{ symbol := symbol, side := side, type := .Market, quantity := qty
           client_order_id := "opus_" ++ toString (c + 1) }]) ∧
    (∀ e : OrderInfo, r1 = some e →
      (place_bracket_order c symbol side qty sl tp r1 r2 r3).ret =
        { entry_order := some e, stop_loss_order := r2, take_profit_order := r3 } ∧
      (place_bracket_order c symbol side qty sl tp r1 r2 r3).placed =
        [{ symbol := symbol, side := side, type := .Market, quantity := qty
           client_order_id := "opus_" ++ toString (c + 1) },
         { symbol := symbol, side := opposite side, type := .StopMarket, quantity := qty
           stop_price := sl, reduce_only := true
           client_order_id := ("opus_" ++ toString (c + 2)) ++ "_SL" },
         { symbol := symbol, side := opposite side, type := .TakeProfitMarket, quantity := qty
           stop_price := tp, reduce_only := true
           client_order_id := ("opus_" ++ toString (c + 3)) ++ "_TP" }]) := by
  constructor
  · intro h
    subst h
    simp [place_bracket_order, place_market_order, generate_client_order_id]
  · intro e h
    subst h
    simp [place_bracket_order, place_market_order, generate_client_order_id]

/-- C4 witness: the entry-success branch at a concrete input. -/
theorem place_bracket_order_spec_witness :
    (place_bracket_order 0 "BTCUSDT" Side.Buy 200000 9900 10100
        (some { order_id := 7, executed_qty := 200000 }) none (some { order_id := 9 })).ret =
      { entry_order := some { order_id := 7, executed_qty := 200000 }
        stop_loss_order := none
        take_profit_order := some { order_id := 9 } } ∧
    (place_bracket_order 0 "BTCUSDT" Side.Buy 200000 9900 10100
        (some { order_id := 7, executed_qty := 200000 }) none (some { order_id := 9 })).placed =
      [{ symbol := "BTCUSDT", side := Side.Buy, type := .Market, quantity := 200000
         client_order_id := "opus_" ++ toString (0 + 1) },
       { symbol := "BTCUSDT", side := opposite Side.Buy, type := .StopMarket
         quantity := 200000, stop_price := 9900, reduce_only := true
         client_order_id := ("opus_" ++ toString (0 + 2)) ++ "_SL" },
       { symbol := "BTCUSDT", side := opposite Side.Buy, type := .TakeProfitMarket
         quantity := 200000, stop_price := 10100, reduce_only := true
         client_order_id := ("opus_" ++ toString (0 + 3)) ++ "_TP" }] :=
  (place_bracket_order_spec 0 "BTCUSDT" Side.Buy 200000 9900 10100
      (some { order_id := 7, executed_qty := 200000 }) none (some { order_id := 9 })).2
    { order_id := 7, executed_qty := 200000 } rfl

/-! ### C1: emergency reduce-only close after a partial bracket -/

/-- C1 counterexample: when the entry response reports executed_qty = 0
(not a valid quantity), the emergency close is sent for the engine's
rounded quantity 200000, not for the entry's executed_qty: the fourth
placed order has quantity 200000 while executed_qty is 0. -/
theorem close_qty_not_executed_qty :
    ((engine_bracket_step 0 "BTCUSDT" true 200000 9900 10100
        (some { order_id := 7, executed_qty := 0 }) none
        (some { order_id := 9 })).placed.map (fun r => r.quantity)) =
      [200000, 200000, 200000, 200000] ∧
    ((engine_bracket_step 0 "BTCUSDT" true 200000 9900 10100
        (some { order_id := 7, executed_qty := 0 }) none
        (some { order_id := 9 })).placed.map (fun r => r.reduce_only)) =
      [false, true, true, true] ∧
    ({ order_id := 7, executed_qty := 0 } : OrderInfo).executed_qty = 0 ∧
    (200000 : ℤ) ≠ 0 := by
  refine ⟨by decide, by decide, by decide, by decide⟩

/-- C1 (amended): whenever the bracket result has the entry present but
the stop-loss or take-profit absent, the next and only further order the
engine places is a reduce-only Market order on the side opposite to the
entry, with quantity equal to the entry's executed_qty when that quantity
is valid (raw value positive) and otherwise equal to the engine's locally
rounded quantity; nothing is placed between the bracket legs and this
close. -/
theorem emergency_close_next_order (c : ℕ) (symbol : String) (is_long : Bool)
    (rounded_qty sl tp : ℤ) (r1 r2 r3 : Option OrderInfo) (e : OrderInfo)
    (hentry : (place_bracket_order c symbol (if is_long then Side.Buy else Side.Sell)
        rounded_qty sl tp r1 r2 r3).ret.entry_order = some e)
    (hmiss : (place_bracket_order c symbol (if is_long then Side.Buy else Side.Sell)
        rounded_qty sl tp r1 r2 r3).ret.stop_loss_order = none ∨
      (place_bracket_order c symbol (if is_long then Side.Buy else Side.Sell)
        rounded_qty sl tp r1 r2 r3).ret.take_profit_order = none) :
    (engine_bracket_step c symbol is_long rounded_qty sl tp r1 r2 r3).placed =
      (place_bracket_order c symbol (if is_long then Side.Buy else Side.Sell)
        rounded_qty sl tp r1 r2 r3).placed ++
      [{ symbol := symbol
         side := if is_long then Side.Sell else Side.Buy
         type := .Market
         quantity := if e.executed_qty > 0 then e.executed_qty else rounded_qty
         reduce_only := true
         client_order_id := "opus_" ++
           toString ((place_bracket_order c symbol
             (if is_long then Side.Buy else Side.Sell)
             rounded_qty sl tp r1 r2 r3).counter + 1) }] ∧
    (if is_long then Side.Sell else Side.Buy) =
      opposite (if is_long then Side.Buy else Side.Sell) := by
  cases r1 with
  | none =>
    simp [place_bracket_order, place_market_order] at hentry
  | some e' =>
    have he : e' = e := by
      simpa [place_bracket_order, place_market_order] using hentry
    subst he
    constructor
    · simp only [engine_bracket_step]
      simp only [place_bracket_order, place_market_order, generate_client_order_id] at hmiss ⊢
      simp [place_reduce_only_market_order, generate_client_order_id, hmiss]
    · cases is_long <;> rfl

/-- C1 witness: a concrete partial-bracket run (stop loss failed, valid
executed quantity) in which the close follows the bracket legs. -/
theorem emergency_close_next_order_witness :
    (engine_bracket_step 0 "BTCUSDT" true 200000 9900 10100
        (some { order_id := 7, executed_qty := 150000 }) none
        (some { order_id := 9 })).placed =
      (place_bracket_order 0 "BTCUSDT" (if true then Side.Buy else Side.Sell)
        200000 9900 10100 (some { order_id := 7, executed_qty := 150000 }) none
        (some { order_id := 9 })).placed ++
      [{ symbol := "BTCUSDT"
         side := if true then Side.Sell else Side.Buy
         type := .Market
         quantity := if ({ order_id := 7, executed_qty := 150000 } : OrderInfo).executed_qty > 0
           then ({ order_id := 7, executed_qty := 150000 } : OrderInfo).executed_qty
           else 200000
         reduce_only := true
         client_order_id := "opus_" ++
           toString ((place_bracket_order 0 "BTCUSDT" (if true then Side.Buy else Side.Sell)
             200000 9900 10100 (some { order_id := 7, executed_qty := 150000 }) none
             (some { order_id := 9 })).counter + 1) }] ∧
    (if true then Side.Sell else Side.Buy) =
      opposite (if true then Side.Buy else Side.Sell) :=
  emergency_close_next_order 0 "BTCUSDT" true 200000 9900 10100
    (some { order_id := 7, executed_qty := 150000 }) none (some { order_id := 9 })
    { order_id := 7, executed_qty := 150000 } (by decide) (Or.inl (by decide))

end order

namespace strategy

/-! ### C6: directional cooldown of the signal filter -/

theorem filter_buy_emit (cfg : SignalFilterConfig) (s : FilterState)
    (imb sp : ℚ) (now : ℤ)
    (h : (filter cfg s imb sp now).1.type = .Buy) :
    cooldown_ns cfg ≤ now - s.last_buy_time ∧
    (filter cfg s imb sp now).2.last_buy_time = now := by
  simp only [filter] at h ⊢
  split_ifs at h ⊢ <;> simp_all

theorem filter_sell_emit (cfg : SignalFilterConfig) (s : FilterState)
    (imb sp : ℚ) (now : ℤ)
    (h : (filter cfg s imb sp now).1.type = .Sell) :
    cooldown_ns cfg ≤ now - s.last_sell_time ∧
    (filter cfg s imb sp now).2.last_sell_time = now := by
  simp only [filter] at h ⊢
  split_ifs at h ⊢ <;> simp_all

theorem filter_lastBuy_cases (cfg : SignalFilterConfig) (s : FilterState)
    (imb sp : ℚ) (now : ℤ) :
    (filter cfg s imb sp now).2.last_buy_time = s.last_buy_time ∨
    (filter cfg s imb sp now).2.last_buy_time = now := by
  simp only [filter]
  split_ifs <;> simp

theorem filter_lastSell_cases (cfg : SignalFilterConfig) (s : FilterState)
    (imb sp : ℚ) (now : ℤ) :
    (filter cfg s imb sp now).2.last_sell_time = s.last_sell_time ∨
    (filter cfg s imb sp now).2.last_sell_time = now := by
  simp only [filter]
  split_ifs <;> simp

theorem runFilter_buy_lower (cfg : SignalFilterConfig) :
    ∀ (xs : List FilterInput) (s : FilterState) (c : ℤ),
      c ≤ s.last_buy_time → (∀ x ∈ xs, c ≤ x.now) →
      ∀ p ∈ runFilter cfg s xs, p.2 = .Buy → c + cooldown_ns cfg ≤ p.1 := by
  intro xs
  induction xs with
  | nil =>
    intro s c _ _ p hp
    simp [runFilter] at hp
  | cons x xs ih =>
    intro s c hc hmono p hp hbuy
    simp only [runFilter, List.mem_cons] at hp
    rcases hp with hp | hp
    · subst hp
      simp only at hbuy
      have h2 := filter_buy_emit cfg s x.imbalance x.spread_pct x.now hbuy
      have := h2.1
      simp only
      omega
    · refine ih _ c ?_ (fun y hy => hmono y (List.mem_cons_of_mem _ hy)) p hp hbuy
      rcases filter_lastBuy_cases cfg s x.imbalance x.spread_pct x.now with h | h
      · omega
      · rw [h]
        exact hmono x (List.mem_cons_self _ _)

theorem runFilter_sell_lower (cfg : SignalFilterConfig) :
    ∀ (xs : List FilterInput) (s : FilterState) (c : ℤ),
      c ≤ s.last_sell_time → (∀ x ∈ xs, c ≤ x.now) →
      ∀ p ∈ runFilter cfg s xs, p.2 = .Sell → c + cooldown_ns cfg ≤ p.1 := by
  intro xs
  induction xs with
  | nil =>
    intro s c _ _ p hp
    simp [runFilter] at hp
  | cons x xs ih =>
    intro s c hc hmono p hp hsell
    simp only [runFilter, List.mem_cons] at hp
    rcases hp with hp | hp
    · subst hp
      simp only at hsell
      have h2 := filter_sell_emit cfg s x.imbalance x.spread_pct x.now hsell
      have := h2.1
      simp only
      omega
    · refine ih _ c ?_ (fun y hy => hmono y (List.mem_cons_of_mem _ hy)) p hp hsell
      rcases filter_lastSell_cases cfg s x.imbalance x.spread_pct x.now with h | h
      · omega
      · rw [h]
        exact hmono x (List.mem_cons_self _ _)

theorem runFilter_pairwise_aux (cfg : SignalFilterConfig) :
    ∀ (xs : List FilterInput) (s : FilterState),
      List.Pairwise (fun a b => a.now ≤ b.now) xs →
      List.Pairwise (fun a b : ℤ × SignalType =>
        (a.2 = .Buy → b.2 = .Buy → a.1 + cooldown_ns cfg ≤ b.1) ∧
        (a.2 = .Sell → b.2 = .Sell → a.1 + cooldown_ns cfg ≤ b.1))
        (runFilter cfg s xs) := by
  intro xs
  induction xs with
  | nil =>
    intro s _
    simp [runFilter]
  | cons x xs ih =>
    intro s hm
    rw [List.pairwise_cons] at hm
    obtain ⟨hx, hxs⟩ := hm
    simp only [runFilter]
    refine List.Pairwise.cons ?_ (ih _ hxs)
    intro q hq
    constructor
    · intro ha hb
      simp only at ha
      have he := filter_buy_emit cfg s x.imbalance x.spread_pct x.now ha
      simp only
      exact runFilter_buy_lower cfg xs _ x.now (by omega) hx q hq hb
    · intro ha hb
      simp only at ha
      have he := filter_sell_emit cfg s x.imbalance x.spread_pct x.now ha
      simp only
      exact runFilter_sell_lower cfg xs _ x.now (by omega) hx q hq hb

/-- C6: over any sequence of SignalFilter::filter calls at monotone
steady-clock times, starting from a freshly constructed filter, any two
calls that both return a qualified signal of the same direction are
separated by at least cooldown_seconds (here in nanoseconds). -/
theorem filter_cooldown_invariant (cfg : SignalFilterConfig)
    (inputs : List FilterInput)
    (hmono : List.Pairwise (fun a b => a.now ≤ b.now) inputs) :
    List.Pairwise (fun a b : ℤ × SignalType =>
      (a.2 = .Buy → b.2 = .Buy → a.1 + cooldown_ns cfg ≤ b.1) ∧
      (a.2 = .Sell → b.2 = .Sell → a.1 + cooldown_ns cfg ≤ b.1))
      (runFilter cfg {} inputs) :=
  runFilter_pairwise_aux cfg inputs {} hmono

/-- C6 witness: a concrete monotone call sequence. -/
theorem filter_cooldown_invariant_witness :
    List.Pairwise (fun a b : ℤ × SignalType =>
      (a.2 = .Buy → b.2 = .Buy → a.1 + cooldown_ns {} ≤ b.1) ∧
      (a.2 = .Sell → b.2 = .Sell → a.1 + cooldown_ns {} ≤ b.1))
      (runFilter {} {}
        [{ imbalance := 0.65, spread_pct := 0.01, now := 1000000000 },
         { imbalance := 0.65, spread_pct := 0.01, now := 2000000000 },
         { imbalance := 0.65, spread_pct := 0.01, now := 3000000000 }]) :=
  filter_cooldown_invariant {}
    [{ imbalance := 0.65, spread_pct := 0.01, now := 1000000000 },
     { imbalance := 0.65, spread_pct := 0.01, now := 2000000000 },
     { imbalance := 0.65, spread_pct := 0.01, now := 3000000000 }]
    (by decide)

end strategy

namespace market

/-! ### C8: order book monotonicity -/

theorem insert_sorted_mem {prec : ℤ → ℤ → Prop} [DecidableRel prec] (p q : ℤ) :
    ∀ (l : List Level) (y : Level),
      y ∈ insert_sorted prec p q l → y ∈ l ∨ y = (p, q) := by
  intro l
  induction l with
  | nil =>
    intro y hy
    simp only [insert_sorted, List.mem_singleton] at hy
    exact Or.inr hy
  | cons hd tl ih =>
    intro y hy
    simp only [insert_sorted] at hy
    split_ifs at hy with h1 h2
    · rcases List.mem_cons.mp hy with h | h
      · exact Or.inl (h ▸ List.mem_cons_self hd tl)
      · rcases ih y h with h' | h'
        · exact Or.inl (List.mem_cons_of_mem _ h')
        · exact Or.inr h'
    · rcases List.mem_cons.mp hy with h | h
      · exact Or.inr h
      · exact Or.inl (List.mem_cons_of_mem _ h)
    · rcases List.mem_cons.mp hy with h | h
      · exact Or.inr h
      · exact Or.inl h

theorem insert_sorted_pairwise {prec : ℤ → ℤ → Prop} [DecidableRel prec]
    (htrans : ∀ a b c : ℤ, prec a b → prec b c → prec a c)
    (htot : ∀ a b : ℤ, ¬prec a b → a ≠ b → prec b a)
    (p q : ℤ) :
    ∀ l : List Level, l.Pairwise (fun x y => prec x.1 y.1) →
      (insert_sorted prec p q l).Pairwise (fun x y => prec x.1 y.1) := by
  intro l
  induction l with
  | nil =>
    intro _
    simp [insert_sorted]
  | cons hd tl ih =>
    intro hl
    rw [List.pairwise_cons] at hl
    obtain ⟨hhd, htl⟩ := hl
    simp only [insert_sorted]
    split_ifs with h1 h2
    · rw [List.pairwise_cons]
      refine ⟨?_, ih htl⟩
      intro y hy
      rcases insert_sorted_mem p q tl y hy with h | h
      · exact hhd y h
      · rw [h]
        exact h1
    · rw [List.pairwise_cons]
      refine ⟨?_, htl⟩
      intro y hy
      have h3 := hhd y hy
      rw [h2] at h3
      exact h3
    · rw [List.pairwise_cons]
      constructor
      · intro y hy
        rcases List.mem_cons.mp hy with h | h
        · rw [h]
          exact htot hd.1 p h1 h2
        · exact htrans p hd.1 y.1 (htot hd.1 p h1 h2) (hhd y h)
      · exact List.pairwise_cons.mpr ⟨hhd, htl⟩

/-- Both book sides stay strictly sorted: bids descending, asks
ascending. -/
def BookInv (b : Book) : Prop :=
  (b.bids.Pairwise fun x y => x.1 > y.1) ∧ (b.asks.Pairwise fun x y => x.1 < y.1)

theorem applyUpdate_inv (b : Book) (u : BookUpdate) (hb : BookInv b) :
    BookInv (applyUpdate b u) := by
  obtain ⟨hbids, hasks⟩ := hb
  cases u with
  | bid p q =>
    simp only [applyUpdate, update_bid]
    split_ifs with h
    · exact ⟨List.Pairwise.sublist (List.eraseP_sublist _) hbids, hasks⟩
    · refine ⟨List.Pairwise.sublist (List.take_sublist _ _) ?_, hasks⟩
      exact insert_sorted_pairwise (fun a b c h1 h2 => h2.trans h1)
        (fun a b h1 h2 => by omega) p q b.bids hbids
  | ask p q =>
    simp only [applyUpdate, update_ask]
    split_ifs with h
    · exact ⟨hbids, List.Pairwise.sublist (List.eraseP_sublist _) hasks⟩
    · refine ⟨hbids, List.Pairwise.sublist (List.take_sublist _ _) ?_⟩
      exact insert_sorted_pairwise (fun a b c h1 h2 => h1.trans h2)
        (fun a b h1 h2 => by omega) p q b.asks hasks

theorem applyUpdates_inv : ∀ (us : List BookUpdate) (b : Book), BookInv b →
    BookInv (applyUpdates us b) := by
  intro us
  induction us with
  | nil => intro b hb; exact hb
  | cons u us ih =>
    intro b hb
    exact ih _ (applyUpdate_inv b u hb)

/-- C8: after any sequence of update_bid and update_ask calls applied to
an empty book, bid prices are strictly decreasing, ask prices are strictly
increasing, and no price occurs twice on a side. -/
theorem order_book_sorted (us : List BookUpdate) :
    ((applyUpdates us {}).bids.Pairwise fun x y => x.1 > y.1) ∧
    ((applyUpdates us {}).asks.Pairwise fun x y => x.1 < y.1) ∧
    ((applyUpdates us {}).bids.map Prod.fst).Nodup ∧
    ((applyUpdates us {}).asks.map Prod.fst).Nodup := by
  have h := applyUpdates_inv us {} ⟨List.Pairwise.nil, List.Pairwise.nil⟩
  obtain ⟨hbids, hasks⟩ := h
  refine ⟨hbids, hasks, ?_, ?_⟩
  · rw [List.Nodup, List.pairwise_map]
    exact hbids.imp (fun h => ne_of_gt h)
  · rw [List.Nodup, List.pairwise_map]
    exact hasks.imp (fun h => ne_of_lt h)

end market

namespace ring

/-! ### C7: SPSC ring buffer refines a bounded FIFO queue -/

theorem mod_two_cases (x C : ℕ) (_h0 : 0 < C) (h : x < 2 * C) :
    x % C = if x < C then x else x - C := by
  split_ifs with hx
  · exact Nat.mod_eq_of_lt hx
  · have h1 : x - C < C := by omega
    have h2 : x % C = (x - C) % C := by
      conv_lhs => rw [show x = (x - C) + C by omega]
      rw [Nat.add_mod_right]
    rw [h2, Nat.mod_eq_of_lt h1]

theorem absQueue_length (C : ℕ) {T : Type} (s : RingState T) :
    (absQueue C s).length = ringSize C s := by
  simp [absQueue]

theorem ringSize_lt (C : ℕ) {T : Type} (h0 : 0 < C) (s : RingState T) :
    ringSize C s < C :=
  Nat.mod_lt _ h0

/-- Indices strictly inside the occupied segment never alias the producer
cursor. -/
theorem occupied_ne_head (C : ℕ) {T : Type} (s : RingState T) (hC : 2 ≤ C)
    (hh : s.head < C) (ht : s.tail < C) {i : ℕ} (hi : i < ringSize C s) :
    (s.tail + i) % C ≠ s.head := by
  intro heq
  have hiC : i < C := lt_of_lt_of_le hi (le_of_lt (ringSize_lt C (by omega) s))
  unfold ringSize at hi
  rw [mod_two_cases (s.head + C - s.tail) C (by omega) (by omega)] at hi
  rw [mod_two_cases (s.tail + i) C (by omega) (by omega)] at heq
  split_ifs at hi <;> split_ifs at heq <;> omega

/-- Successful push: the new occupied segment is the old one with the
item appended. -/
theorem absQueue_push (C : ℕ) {T : Type} (s : RingState T) (x : T) (hC : 2 ≤ C)
    (hh : s.head < C) (ht : s.tail < C) (hsucc : (s.head + 1) % C ≠ s.tail) :
    absQueue C
        { s with buffer := fun i => if i = s.head then x else s.buffer i
                 head := (s.head + 1) % C } =
      absQueue C s ++ [x] := by
  have hsz : ringSize C
      ({ s with buffer := fun i => if i = s.head then x else s.buffer i
                head := (s.head + 1) % C } : RingState T) = ringSize C s + 1 := by
    unfold ringSize
    dsimp only
    rw [mod_two_cases (s.head + 1) C (by omega) (by omega)] at hsucc ⊢
    rw [mod_two_cases (s.head + C - s.tail) C (by omega) (by omega)]
    rw [mod_two_cases
      ((if s.head + 1 < C then s.head + 1 else s.head + 1 - C) + C - s.tail) C
      (by omega) (by split_ifs <;> omega)]
    split_ifs at hsucc ⊢ <;> omega
  unfold absQueue
  rw [hsz, List.range_succ, List.map_append]
  congr 1
  · apply List.map_congr_left
    intro i hi
    rw [List.mem_range] at hi
    have hne := occupied_ne_head C s hC hh ht hi
    simp only [if_neg hne]
  · simp only [List.map_cons, List.map_nil]
    have hidx : (s.tail + ringSize C s) % C = s.head := by
      unfold ringSize
      rw [mod_two_cases (s.head + C - s.tail) C (by omega) (by omega)]
      rw [mod_two_cases _ C (by omega) (by split_ifs <;> omega)]
      split_ifs <;> omega
    rw [hidx]
    simp

/-- Successful pop: the old occupied segment is the returned item
followed by the new occupied segment. -/
theorem absQueue_pop (C : ℕ) {T : Type} (s : RingState T) (hC : 2 ≤ C)
    (hh : s.head < C) (ht : s.tail < C) (hne : s.tail ≠ s.head) :
    absQueue C s =
      s.buffer s.tail :: absQueue C { s with tail := (s.tail + 1) % C } := by
  have hsz0 : ringSize C s ≠ 0 := by
    unfold ringSize
    rw [mod_two_cases _ C (by omega) (by omega)]
    split_ifs <;> omega
  obtain ⟨m, hm⟩ := Nat.exists_eq_succ_of_ne_zero hsz0
  have hsz' : ringSize C ({ s with tail := (s.tail + 1) % C } : RingState T) = m := by
    unfold ringSize at hm ⊢
    dsimp only
    rw [mod_two_cases (s.tail + 1) C (by omega) (by omega)]
    rw [mod_two_cases (s.head + C - s.tail) C (by omega) (by omega)] at hm
    rw [mod_two_cases
      (s.head + C - (if s.tail + 1 < C then s.tail + 1 else s.tail + 1 - C)) C
      (by omega) (by split_ifs <;> omega)]
    split_ifs at hm ⊢ <;> omega
  unfold absQueue
  rw [hm, hsz', List.range_succ_eq_map, List.map_cons, List.map_map]
  congr 1
  · rw [Nat.add_zero, Nat.mod_eq_of_lt ht]
  · apply List.map_congr_left
    intro i hi
    simp only [Function.comp_apply]
    congr 1
    rw [Nat.mod_add_mod]
    congr 1
    omega

theorem push_size_iff (C : ℕ) {T : Type} (s : RingState T) (hC : 2 ≤ C)
    (hh : s.head < C) (ht : s.tail < C) :
    ((s.head + 1) % C ≠ s.tail) ↔ ringSize C s < C - 1 := by
  unfold ringSize
  rw [mod_two_cases (s.head + 1) C (by omega) (by omega)]
  rw [mod_two_cases (s.head + C - s.tail) C (by omega) (by omega)]
  split_ifs <;> omega

/-- C7: used sequentially, the SPSC ring with power-of-two capacity C
refines a bounded FIFO queue of capacity C - 1 under the segment
abstraction absQueue: try_push succeeds iff (head+1) mod C differs from
tail, equivalently iff fewer than C - 1 items are queued, and then appends
the item; a failed push leaves the state unchanged; try_pop returns none
iff head = tail and otherwise the oldest queued item, leaving the rest;
the cursors stay below C.  The final conjunct is the spec's concrete
wrap-around scenario on a capacity-4 ring: pushes of 0,1,2 succeed, a
fourth push at size 3 fails, pops return 0,1,2, pushes of 3,4,5 succeed
and pops return 3,4,5. -/
theorem spsc_ring_refines_queue {T : Type} (k C : ℕ) (s : RingState T) (x : T)
    (hC : C = 2 ^ k) (hk : 1 ≤ k) (hh : s.head < C) (ht : s.tail < C) :
    ((try_push C s x).1 = true ↔ (s.head + 1) % C ≠ s.tail) ∧
    ((try_push C s x).1 = true ↔ (absQueue C s).length < C - 1) ∧
    ((try_push C s x).1 = true →
      absQueue C (try_push C s x).2 = absQueue C s ++ [x]) ∧
    ((try_push C s x).1 = false → (try_push C s x).2 = s) ∧
    ((try_pop C s).1 = none ↔ s.head = s.tail) ∧
    ((try_pop C s).1 = (absQueue C s).head?) ∧
    (absQueue C (try_pop C s).2 = (absQueue C s).tail) ∧
    ((try_push C s x).2.head < C ∧ (try_push C s x).2.tail < C ∧
     (try_pop C s).2.head < C ∧ (try_pop C s).2.tail < C) ∧
    ((pushAll 4 (mkRing 0) [0, 1, 2]).1 = [true, true, true] ∧
     (try_push 4 (pushAll 4 (mkRing 0) [0, 1, 2]).2 99).1 = false ∧
     (popN 4 (pushAll 4 (mkRing 0) [0, 1, 2]).2 3).1 = [some 0, some 1, some 2] ∧
     (pushAll 4 (popN 4 (pushAll 4 (mkRing 0) [0, 1, 2]).2 3).2 [3, 4, 5]).1 =
       [true, true, true] ∧
     (popN 4 (pushAll 4 (popN 4 (pushAll 4 (mkRing 0) [0, 1, 2]).2 3).2 [3, 4, 5]).2 3).1 =
       [some 3, some 4, some 5]) := by
  subst hC
  have hC2 : 2 ≤ 2 ^ k := by
    calc 2 = 2 ^ 1 := by norm_num
    _ ≤ 2 ^ k := Nat.pow_le_pow_right (by norm_num) hk
  simp only [try_push, try_pop, Nat.and_pow_two_sub_one_eq_mod]
  refine ⟨?_, ?_, ?_, ?_, ?_, ?_, ?_, ?_, ?_⟩
  · split_ifs with h <;> simp [h]
  · rw [absQueue_length, ← push_size_iff (2 ^ k) s hC2 hh ht]
    split_ifs with h <;> simp [h]
  · intro hs
    split_ifs at hs ⊢ with h
    exact absQueue_push (2 ^ k) s x hC2 hh ht h
  · intro hs
    split_ifs at hs ⊢ with h
    rfl
  · split_ifs with h
    · simp [h]
    · constructor
      · intro hc
        simp at hc
      · intro hc
        exact absurd hc.symm h
  · split_ifs with h
    · have hsz : ringSize (2 ^ k) s = 0 := by
        unfold ringSize
        rw [h]
        have e : s.head + 2 ^ k - s.head = 2 ^ k := by omega
        rw [e, Nat.mod_self]
      simp [absQueue, hsz]
    · rw [absQueue_pop (2 ^ k) s hC2 hh ht h]
      rfl
  · split_ifs with h
    · have hsz : ringSize (2 ^ k) s = 0 := by
        unfold ringSize
        rw [h]
        have e : s.head + 2 ^ k - s.head = 2 ^ k := by omega
        rw [e, Nat.mod_self]
      simp [absQueue, hsz]
    · rw [absQueue_pop (2 ^ k) s hC2 hh ht h]
      rfl
  · refine ⟨?_, ?_, ?_, ?_⟩ <;> split_ifs <;>
      first
        | exact hh
        | exact ht
        | exact Nat.mod_lt _ (by omega)
  · refine ⟨by decide, by decide, by decide, by decide, by decide⟩

/-- C7 witness: the refinement facts at a concrete capacity-4 state. -/
theorem spsc_ring_refines_queue_witness :
    (((try_push 4 (mkRing (0 : ℕ)) 7).1 = true ↔
        ((mkRing (0 : ℕ)).head + 1) % 4 ≠ (mkRing (0 : ℕ)).tail) ∧
     ((try_push 4 (mkRing (0 : ℕ)) 7).1 = true ↔
        (absQueue 4 (mkRing (0 : ℕ))).length < 4 - 1) ∧
     ((try_push 4 (mkRing (0 : ℕ)) 7).1 = true →
        absQueue 4 (try_push 4 (mkRing (0 : ℕ)) 7).2 =
          absQueue 4 (mkRing (0 : ℕ)) ++ [7]) ∧
     ((try_push 4 (mkRing (0 : ℕ)) 7).1 = false →
        (try_push 4 (mkRing (0 : ℕ)) 7).2 = mkRing (0 : ℕ)) ∧
     ((try_pop 4 (mkRing (0 : ℕ))).1 = none ↔
        (mkRing (0 : ℕ)).head = (mkRing (0 : ℕ)).tail) ∧
     ((try_pop 4 (mkRing (0 : ℕ))).1 = (absQueue 4 (mkRing (0 : ℕ))).head?) ∧
     (absQueue 4 (try_pop 4 (mkRing (0 : ℕ))).2 =
        (absQueue 4 (mkRing (0 : ℕ))).tail) ∧
     ((try_push 4 (mkRing (0 : ℕ)) 7).2.head < 4 ∧
      (try_push 4 (mkRing (0 : ℕ)) 7).2.tail < 4 ∧
      (try_pop 4 (mkRing (0 : ℕ))).2.head < 4 ∧
      (try_pop 4 (mkRing (0 : ℕ))).2.tail < 4) ∧
     ((pushAll 4 (mkRing 0) [0, 1, 2]).1 = [true, true, true] ∧
      (try_push 4 (pushAll 4 (mkRing 0) [0, 1, 2]).2 99).1 = false ∧
      (popN 4 (pushAll 4 (mkRing 0) [0, 1, 2]).2 3).1 = [some 0, some 1, some 2] ∧
      (pushAll 4 (popN 4 (pushAll 4 (mkRing 0) [0, 1, 2]).2 3).2 [3, 4, 5]).1 =
        [true, true, true] ∧
      (popN 4 (pushAll 4 (popN 4 (pushAll 4 (mkRing 0) [0, 1, 2]).2 3).2 [3, 4, 5]).2 3).1 =
        [some 3, some 4, some 5])) :=
  spsc_ring_refines_queue 2 4 (mkRing (0 : ℕ)) 7 (by norm_num) (by norm_num)
    (by decide) (by decide)

end ring

end Opus
